import Mathlib

/-!
# Verification of the snowops contract service core

Shallow embedding of the contract accounting and access-control engine of the
snowops contract service (Go sources: `internal/model/domain.go`,
`internal/repository/contract.go`, the `service` package in
`cmd/contract-service/main.go`, and the SQL schema in `internal/db/migrations.go`).

Modelling conventions:
* UUIDs are modelled as `Nat` (0 plays the role of `uuid.Nil`); the database
  generates fresh ids from a `nextID` counter.
* `time.Time` values are modelled as `Int` Unix timestamps; `t.Before u` is
  `t < u` and `t.After u` is `u < t`.
* Go `float64` money/volume fields are modelled as `ℚ` (exact arithmetic).
* The relational store is a record of lists (one per table); a transactional
  operation is a pure function `DB → Except e DB`: returning `.error` models a
  rolled-back transaction, so the state is unchanged exactly when the operation
  fails — this captures the "both writes commit together or neither does"
  atomicity of Go's `Transaction` blocks.
* gorm's `Raw(...).Scan` adds no error on an empty result (only
  `First/Take/Last` raise `ErrRecordNotFound`): a lookup that matches no row
  leaves the Go zero value in the destination, and a record-not-found error
  appears only where the code manufactures one from an explicit `uuid.Nil`
  check (as `GetByID` does).  An `errors.Is(err, gorm.ErrRecordNotFound)`
  guard after a bare `Scan` is dead code and is modelled as such.
-/

namespace Snowops

/-- UUIDs are modelled as naturals; `0` stands for `uuid.Nil`. -/
abbrev UUID := Nat

/-- `model.UserRole` from `internal/model/domain.go`. -/
inductive UserRole where
  | akimatAdmin
  | kguZkhAdmin
  | tooAdmin
  | contractorAdmin
  | driver
deriving DecidableEq, Repr

/-- `model.WorkType` from `internal/model/domain.go`. -/
inductive WorkType where
  | road
  | sidewalk
  | yard
deriving DecidableEq, Repr

/-- `model.ContractUIStatus` from `internal/model/domain.go`. -/
inductive ContractUIStatus where
  | planned
  | active
  | expired
  | archived
deriving DecidableEq, Repr

/-- `model.ContractResult` from `internal/model/domain.go`. -/
inductive ContractResult where
  | none
  | success
  | fail
deriving DecidableEq, Repr

/-- `model.Principal` from `internal/model/domain.go`. -/
structure Principal where
  userID : UUID
  organizationID : UUID
  role : UserRole
deriving DecidableEq, Repr

/-- `Principal.IsAkimat`. -/
def Principal.isAkimat (p : Principal) : Bool := p.role = UserRole.akimatAdmin

/-- `Principal.IsKgu`. -/
def Principal.isKgu (p : Principal) : Bool := p.role = UserRole.kguZkhAdmin

/-- `Principal.IsContractor`. -/
def Principal.isContractor (p : Principal) : Bool := p.role = UserRole.contractorAdmin

/-- One persisted row of the `contracts` table, i.e. exactly the columns the
repository `SELECT`s (`internal/db/migrations.go`, `repository.List/GetByID`). -/
structure ContractRow where
  id : UUID
  contractorID : UUID
  createdByOrgID : UUID
  name : String
  workType : WorkType
  pricePerM3 : ℚ
  budgetTotal : ℚ
  minimalVolumeM3 : ℚ
  startAt : Int
  endAt : Int
  isActive : Bool
  createdAt : Int
deriving DecidableEq, Repr

/-- One row of the `contract_usage` table (`model.ContractUsage`). -/
structure ContractUsage where
  id : UUID
  contractID : UUID
  totalVolumeM3 : ℚ
  totalCost : ℚ
  updatedAt : Int
deriving DecidableEq, Repr

/-- `model.Contract`: the stored columns plus the relation/derived fields that
gorm's `Scan` leaves at their Go zero values (`nil` pointer / `""` status /
`false` / `0`).  The zero values of the string-typed `UIStatus` and `Result`
fields are modelled as `Option.none`. -/
structure Contract where
  id : UUID
  contractorID : UUID
  createdByOrgID : UUID
  name : String
  workType : WorkType
  pricePerM3 : ℚ
  budgetTotal : ℚ
  minimalVolumeM3 : ℚ
  startAt : Int
  endAt : Int
  isActive : Bool
  createdAt : Int
  usage : Option ContractUsage
  uiStatus : Option ContractUIStatus
  result : Option ContractResult
  payableAmount : ℚ
  budgetExceeded : Bool
  volumeProgress : ℚ
deriving DecidableEq, Repr

/-- Building a `model.Contract` from a scanned row: stored columns are copied,
derived/relation fields keep their Go zero values. -/
def ContractRow.toContract (r : ContractRow) : Contract :=
  { id := r.id
    contractorID := r.contractorID
    createdByOrgID := r.createdByOrgID
    name := r.name
    workType := r.workType
    pricePerM3 := r.pricePerM3
    budgetTotal := r.budgetTotal
    minimalVolumeM3 := r.minimalVolumeM3
    startAt := r.startAt
    endAt := r.endAt
    isActive := r.isActive
    createdAt := r.createdAt
    usage := Option.none
    uiStatus := Option.none
    result := Option.none
    payableAmount := 0
    budgetExceeded := false
    volumeProgress := 0 }

/-- One row of the external `tickets` table, as seen by this service:
`{id, contract_id}` where `contract_id` is nullable. -/
structure Ticket where
  id : UUID
  contractID : Option UUID
deriving DecidableEq, Repr

/-- One row of the append-only `trip_usage_log` table. -/
structure TripUsageRecord where
  tripID : UUID
  ticketID : UUID
  contractID : UUID
  recordedVolumeM3 : ℚ
  recordedCost : ℚ
  createdAt : Int
deriving DecidableEq, Repr

/-- The relational store: the tables the contract core touches, plus an id
generator standing in for `uuid_generate_v4()`. -/
structure DB where
  contracts : List ContractRow
  usage : List ContractUsage
  tickets : List Ticket
  tripLog : List TripUsageRecord
  nextID : UUID
deriving DecidableEq, Repr

/-- Errors of the repository layer (`internal/repository/contract.go`), plus
`recordNotFound` for `gorm.ErrRecordNotFound`. -/
inductive RepoErr where
  | ticketAlreadyLinked
  | ticketNotLinked
  | ticketNotFound
  | tripUsageDuplicate
  | recordNotFound
deriving DecidableEq, Repr

/-- Errors of the service layer (`service` package). `internal` stands for any
storage error passed through the `default` branches. -/
inductive ServiceErr where
  | notFound
  | permissionDenied
  | invalidInput
  | conflict
  | internal
deriving DecidableEq, Repr

namespace ContractRepository

/-- `SELECT ... FROM contracts WHERE id = ? LIMIT 1`. -/
def lookupRow (db : DB) (id : UUID) : Option ContractRow :=
  db.contracts.find? (fun c => decide (c.id = id))

/-- `getUsage`: `SELECT ... FROM contract_usage WHERE contract_id = ? LIMIT 1`. -/
def getUsage (db : DB) (contractID : UUID) : Option ContractUsage :=
  db.usage.find? (fun u => decide (u.contractID = contractID))

/-- `ContractRepository.GetByID`: fetch one contract row (not-found when the
scan produces `uuid.Nil`), optionally attaching the usage row. -/
def GetByID (db : DB) (id : UUID) (includeUsage : Bool) : Except RepoErr Contract :=
  match lookupRow db id with
  | Option.none => Except.error RepoErr.recordNotFound
  | Option.some row =>
      let c := row.toContract
      if includeUsage then Except.ok { c with usage := getUsage db id }
      else Except.ok c

/-- The additive upsert into `contract_usage`
(`INSERT ... ON CONFLICT (contract_id) DO UPDATE SET total_volume_m3 =
contract_usage.total_volume_m3 + EXCLUDED.total_volume_m3, ...`). -/
def upsertUsage (db : DB) (contractID : UUID) (volumeM3 cost : ℚ) (now : Int) : DB :=
  if db.usage.any (fun u => decide (u.contractID = contractID)) then
    { db with usage := db.usage.map (fun u =>
        if decide (u.contractID = contractID) then
          { u with totalVolumeM3 := u.totalVolumeM3 + volumeM3
                   totalCost := u.totalCost + cost
                   updatedAt := now }
        else u) }
  else
    { db with
      usage := db.usage ++ [{ id := db.nextID, contractID := contractID,
                              totalVolumeM3 := volumeM3, totalCost := cost,
                              updatedAt := now }],
      nextID := db.nextID + 1 }

/-- `repository.TripUsageParams`. -/
structure TripUsageParams where
  tripID : UUID
  ticketID : UUID
  volumeM3 : ℚ
  contractID : UUID
deriving DecidableEq, Repr

/-- `ContractRepository.RecordTripUsage`: within one transaction, insert the
ledger row (the `trip_id` primary key makes a duplicate insert fail, which the
Go code translates to `ErrTripUsageDuplicate`), then additively upsert the
contract's usage totals.  Failure of either write rolls the whole transaction
back, which the `Except` result models. -/
def RecordTripUsage (db : DB) (params : TripUsageParams) (pricePerM3 : ℚ)
    (now : Int) : Except RepoErr DB :=
  let cost := params.volumeM3 * pricePerM3
  if db.tripLog.any (fun r => decide (r.tripID = params.tripID)) then
    Except.error RepoErr.tripUsageDuplicate
  else
    let db1 := { db with tripLog := db.tripLog ++
      [{ tripID := params.tripID, ticketID := params.ticketID,
         contractID := params.contractID, recordedVolumeM3 := params.volumeM3,
         recordedCost := cost, createdAt := now }] }
    Except.ok (upsertUsage db1 params.contractID params.volumeM3 cost now)

/-- `ContractRepository.AssignTicketContract`: inside one transaction, read the
ticket's `contract_id` under a row lock (`FOR UPDATE`); silently succeed on a
re-bind to the same contract; fail `ErrTicketAlreadyLinked` on a bind to a
different contract; otherwise run the `UPDATE`.  The scan adds no error for a
missing ticket row — the destination's `ContractID` pointer stays `nil`, the
`gorm.ErrRecordNotFound` guard is dead code, and the subsequent `UPDATE`
matches zero rows and returns success. -/
def AssignTicketContract (db : DB) (ticketID contractID : UUID) : Except RepoErr DB :=
  let existing : Option UUID :=
    match db.tickets.find? (fun t => decide (t.id = ticketID)) with
    | Option.none => Option.none
    | Option.some t => t.contractID
  match existing with
  | Option.some cid =>
      if cid = contractID then Except.ok db
      else Except.error RepoErr.ticketAlreadyLinked
  | Option.none =>
      Except.ok { db with tickets := db.tickets.map (fun t =>
        if decide (t.id = ticketID) then { t with contractID := Option.some contractID } else t) }

/-- `ContractRepository.GetContractIDByTicket`: `SELECT contract_id FROM
tickets WHERE id = ?` scanned into a bare `uuid.UUID`.  The scan adds no error
when the ticket row is missing (and scans a NULL `contract_id` as `uuid.Nil`),
so the `gorm.ErrRecordNotFound` guard is dead code and both the missing-row
and the unbound-ticket cases reach the `uuid.Nil` check and return
`ErrTicketNotLinked`. -/
def GetContractIDByTicket (db : DB) (ticketID : UUID) : Except RepoErr UUID :=
  let contractID : UUID :=
    match db.tickets.find? (fun t => decide (t.id = ticketID)) with
    | Option.none => 0
    | Option.some t =>
        match t.contractID with
        | Option.none => 0
        | Option.some cid => cid
  if contractID == 0 then Except.error RepoErr.ticketNotLinked
  else Except.ok contractID

/-- `repository.ContractFilter` (the fields of the `contract.go` version the
claims reference; `Now` is always supplied by the service). -/
structure ContractFilter where
  contractorID : Option UUID
  createdByOrg : Option UUID
  workType : Option WorkType
  onlyActive : Bool
  includeUsage : Bool
  status : Option ContractUIStatus
  startFrom : Option Int
  startTo : Option Int
  endFrom : Option Int
  endTo : Option Int
  now : Int
deriving DecidableEq, Repr

/-- The SQL `WHERE` clause added for an explicit status filter
(`repository.List`, `switch *filter.Status`). -/
def matchesStatus (s : ContractUIStatus) (now : Int) (c : ContractRow) : Bool :=
  match s with
  | ContractUIStatus.planned => c.isActive && decide (now < c.startAt)
  | ContractUIStatus.active => c.isActive && decide (c.startAt ≤ now) && decide (now ≤ c.endAt)
  | ContractUIStatus.expired => c.isActive && decide (c.endAt < now)
  | ContractUIStatus.archived => !c.isActive

/-- The conjunction of all `WHERE` clauses `repository.List` builds from the
filter. -/
def matchesFilter (f : ContractFilter) (c : ContractRow) : Bool :=
  (match f.contractorID with
   | Option.none => true
   | Option.some v => decide (c.contractorID = v)) &&
  (match f.createdByOrg with
   | Option.none => true
   | Option.some v => decide (c.createdByOrgID = v)) &&
  (match f.workType with
   | Option.none => true
   | Option.some v => decide (c.workType = v)) &&
  (!f.onlyActive || c.isActive) &&
  (match f.startFrom with
   | Option.none => true
   | Option.some t => decide (t ≤ c.startAt)) &&
  (match f.startTo with
   | Option.none => true
   | Option.some t => decide (c.startAt ≤ t)) &&
  (match f.endFrom with
   | Option.none => true
   | Option.some t => decide (t ≤ c.endAt)) &&
  (match f.endTo with
   | Option.none => true
   | Option.some t => decide (c.endAt ≤ t)) &&
  (match f.status with
   | Option.none => true
   | Option.some s => matchesStatus s f.now c)

/-- Insert one row into a list kept in `created_at DESC` order. -/
def insertByCreatedAtDesc (c : ContractRow) : List ContractRow → List ContractRow
  | [] => [c]
  | x :: xs =>
      if x.createdAt ≤ c.createdAt then c :: x :: xs
      else x :: insertByCreatedAtDesc c xs

/-- `ORDER BY c.created_at DESC`. -/
def sortByCreatedAtDesc (l : List ContractRow) : List ContractRow :=
  l.foldr insertByCreatedAtDesc []

/-- `ContractRepository.List`: apply the filter, order by creation time
descending, and (when requested) attach each contract's usage row. -/
def ListContracts (db : DB) (f : ContractFilter) : List Contract :=
  let rows := sortByCreatedAtDesc (db.contracts.filter (matchesFilter f))
  rows.map (fun row =>
    let c := row.toContract
    if f.includeUsage then { c with usage := getUsage db row.id } else c)

/-- `repository.CreateContractParams`. -/
structure CreateContractParams where
  contractorID : UUID
  createdByOrgID : UUID
  name : String
  workType : WorkType
  pricePerM3 : ℚ
  budgetTotal : ℚ
  minimalVolumeM3 : ℚ
  startAt : Int
  endAt : Int
  isActive : Bool
deriving DecidableEq, Repr

/-- `ContractRepository.Create`: insert the contract row (the database
generates the id and `created_at`), then insert the initial zero usage row
(`ON CONFLICT (contract_id) DO NOTHING`). -/
def Create (db : DB) (now : Int) (params : CreateContractParams) : Contract × DB :=
  let row : ContractRow :=
    { id := db.nextID
      contractorID := params.contractorID
      createdByOrgID := params.createdByOrgID
      name := params.name
      workType := params.workType
      pricePerM3 := params.pricePerM3
      budgetTotal := params.budgetTotal
      minimalVolumeM3 := params.minimalVolumeM3
      startAt := params.startAt
      endAt := params.endAt
      isActive := params.isActive
      createdAt := now }
  let db1 := { db with contracts := db.contracts ++ [row], nextID := db.nextID + 1 }
  let db2 :=
    if db1.usage.any (fun u => decide (u.contractID = row.id)) then db1
    else
      { db1 with
        usage := db1.usage ++ [{ id := db1.nextID, contractID := row.id,
                                 totalVolumeM3 := 0, totalCost := 0,
                                 updatedAt := now }],
        nextID := db1.nextID + 1 }
  (row.toContract, db2)

/-- `ContractRepository.HasRelatedTickets`: `count tickets WHERE contract_id = ?` > 0. -/
def HasRelatedTickets (db : DB) (contractID : UUID) : Bool :=
  db.tickets.any (fun t => decide (t.contractID = Option.some contractID))

/-- `ContractRepository.DeleteTicketsByContractID`: delete all tickets linked
to the contract (their own children are handled by the external schema's
cascade/nullify rules, which are outside this store). -/
def DeleteTicketsByContractID (db : DB) (contractID : UUID) : DB :=
  { db with tickets := db.tickets.filter (fun t => !(decide (t.contractID = Option.some contractID))) }

/-- `ContractRepository.Delete`: delete the contract row; `RowsAffected == 0`
becomes `gorm.ErrRecordNotFound`.  The schema's `ON DELETE CASCADE` removes the
contract's usage row and ledger entries with it. -/
def Delete (db : DB) (id : UUID) : Except RepoErr DB :=
  if db.contracts.any (fun c => decide (c.id = id)) then
    Except.ok { db with
      contracts := db.contracts.filter (fun c => !(decide (c.id = id)))
      usage := db.usage.filter (fun u => !(decide (u.contractID = id)))
      tripLog := db.tripLog.filter (fun r => !(decide (r.contractID = id))) }
  else Except.error RepoErr.recordNotFound

end ContractRepository

namespace ContractService

open ContractRepository

/-- `deriveUIStatus` from the service package: `ARCHIVED` if the active flag is
down; else `PLANNED` when `now` is before `start_at`; else `EXPIRED` when `now`
is after `end_at`; else `ACTIVE`. -/
def deriveUIStatus (contract : Contract) (now : Int) : ContractUIStatus :=
  if !contract.isActive then ContractUIStatus.archived
  else if now < contract.startAt then ContractUIStatus.planned
  else if contract.endAt < now then ContractUIStatus.expired
  else ContractUIStatus.active

/-- `ContractService.decorateContract`: compute the derived view fields from the
stored attributes, the attached usage row (zero when absent) and `now`.  The Go
method mutates the struct field by field; the assignments are independent, so
they are modelled as one record update. -/
def decorateContract (contract : Contract) (now : Int) : Contract :=
  let status := deriveUIStatus contract now
  let usageVolume := match contract.usage with
    | Option.some u => u.totalVolumeM3
    | Option.none => 0
  let usageCost := match contract.usage with
    | Option.some u => u.totalCost
    | Option.none => 0
  { contract with
    uiStatus := Option.some status
    volumeProgress :=
      if 0 < contract.minimalVolumeM3 then usageVolume / contract.minimalVolumeM3
      else contract.volumeProgress
    payableAmount := min usageCost contract.budgetTotal
    budgetExceeded := if contract.budgetTotal < usageCost then true else contract.budgetExceeded
    result := Option.some (match status with
      | ContractUIStatus.expired =>
          if contract.minimalVolumeM3 ≤ usageVolume then ContractResult.success
          else ContractResult.fail
      | _ => ContractResult.none) }

/-- `service.ListContractsInput`. -/
structure ListContractsInput where
  contractorID : Option UUID
  workType : Option WorkType
  onlyActive : Bool
  status : Option ContractUIStatus
  startFrom : Option Int
  startTo : Option Int
  endFrom : Option Int
  endTo : Option Int
deriving DecidableEq, Repr

/-- `ContractService.List`: build the repository filter (active-only is dropped
whenever an explicit status is supplied; usage is always included), scope a
contractor principal to its own organization ignoring the requested contractor
filter, let authority/oversight callers filter freely, reject every other role,
then decorate each returned contract. -/
def ListOp (db : DB) (now : Int) (principal : Principal)
    (input : ListContractsInput) : Except ServiceErr (List Contract) :=
  let f0 : ContractFilter :=
    { contractorID := Option.none
      createdByOrg := Option.none
      workType := Option.none
      onlyActive := input.onlyActive && input.status.isNone
      includeUsage := true
      status := input.status
      startFrom := input.startFrom
      startTo := input.startTo
      endFrom := input.endFrom
      endTo := input.endTo
      now := now }
  let branch : Option ContractFilter :=
    if principal.isContractor then
      Option.some { f0 with contractorID := Option.some principal.organizationID }
    else if principal.isKgu || principal.isAkimat then
      Option.some (match input.contractorID with
        | Option.some v => { f0 with contractorID := Option.some v }
        | Option.none => f0)
    else Option.none
  match branch with
  | Option.none => Except.error ServiceErr.permissionDenied
  | Option.some f1 =>
      let f2 := match input.workType with
        | Option.some w => { f1 with workType := Option.some w }
        | Option.none => f1
      Except.ok ((ListContracts db f2).map (fun c => decorateContract c now))

/-- `service.CreateContractInput`. -/
structure CreateContractInput where
  contractorID : UUID
  name : String
  workType : WorkType
  pricePerM3 : ℚ
  budgetTotal : ℚ
  minimalVolumeM3 : ℚ
  startAt : Int
  endAt : Int
  isActive : Option Bool
deriving DecidableEq, Repr

/-- `ContractService.Create`: only the contract authority may create; validate
the name, the strictly positive price/budget/minimal volume, the strictly
ordered date window and the work type; then insert the contract with its
initial zero usage row and return the decorated result.  (The work-type check
is vacuous here because `WorkType` is an enumeration, while Go checks a string
against the three constants.) -/
def CreateOp (db : DB) (now : Int) (principal : Principal)
    (input : CreateContractInput) : Except ServiceErr (Contract × DB) :=
  if !principal.isKgu then Except.error ServiceErr.permissionDenied
  else if input.name.trim = "" then Except.error ServiceErr.invalidInput
  else if input.pricePerM3 ≤ 0 then Except.error ServiceErr.invalidInput
  else if input.budgetTotal ≤ 0 then Except.error ServiceErr.invalidInput
  else if input.minimalVolumeM3 ≤ 0 then Except.error ServiceErr.invalidInput
  else if !(input.startAt < input.endAt) then Except.error ServiceErr.invalidInput
  else if !(input.workType = WorkType.road ∨ input.workType = WorkType.sidewalk
            ∨ input.workType = WorkType.yard : Bool) then
    Except.error ServiceErr.invalidInput
  else
    let isActive := input.isActive.getD true
    let created := ContractRepository.Create db now
      { contractorID := input.contractorID
        createdByOrgID := principal.organizationID
        name := input.name.trim
        workType := input.workType
        pricePerM3 := input.pricePerM3
        budgetTotal := input.budgetTotal
        minimalVolumeM3 := input.minimalVolumeM3
        startAt := input.startAt
        endAt := input.endAt
        isActive := isActive }
    Except.ok (decorateContract created.1 now, created.2)

/-- `service.AssignTicketContractInput`. -/
structure AssignTicketContractInput where
  ticketID : UUID
  contractID : UUID
deriving DecidableEq, Repr

/-- `ContractService.AssignTicketContract`: only the contract authority may
bind, and only to a contract its own organization created; repository errors
are translated to the domain kinds. -/
def AssignTicketContractOp (db : DB) (principal : Principal)
    (input : AssignTicketContractInput) : Except ServiceErr DB :=
  if !principal.isKgu then Except.error ServiceErr.permissionDenied
  else
    match ContractRepository.GetByID db input.contractID false with
    | Except.error RepoErr.recordNotFound => Except.error ServiceErr.notFound
    | Except.error _ => Except.error ServiceErr.internal
    | Except.ok contract =>
        if !(contract.createdByOrgID = principal.organizationID : Bool) then
          Except.error ServiceErr.permissionDenied
        else
          match ContractRepository.AssignTicketContract db input.ticketID input.contractID with
          | Except.ok db2 => Except.ok db2
          | Except.error RepoErr.ticketAlreadyLinked => Except.error ServiceErr.conflict
          | Except.error RepoErr.ticketNotFound => Except.error ServiceErr.notFound
          | Except.error _ => Except.error ServiceErr.internal

/-- `service.RecordTripUsageInput`. -/
structure RecordTripUsageInput where
  tripID : UUID
  ticketID : UUID
  volumeM3 : ℚ
deriving DecidableEq, Repr

/-- `ContractService.RecordTripUsage`: only authority/oversight may record;
non-positive volume is invalid input; resolve the ticket's bound contract
(unknown ticket is not-found, unbound ticket is invalid input); fetch the
contract; then run the transactional ledger insert + rollup update at the
contract's current unit price, translating a duplicate trip id to `Conflict`. -/
def RecordTripUsageOp (db : DB) (now : Int) (principal : Principal)
    (input : RecordTripUsageInput) : Except ServiceErr DB :=
  if !(principal.isKgu || principal.isAkimat) then Except.error ServiceErr.permissionDenied
  else if input.volumeM3 ≤ 0 then Except.error ServiceErr.invalidInput
  else
    match ContractRepository.GetContractIDByTicket db input.ticketID with
    | Except.error RepoErr.ticketNotFound => Except.error ServiceErr.notFound
    | Except.error RepoErr.ticketNotLinked => Except.error ServiceErr.invalidInput
    | Except.error _ => Except.error ServiceErr.internal
    | Except.ok contractID =>
        match ContractRepository.GetByID db contractID false with
        | Except.error RepoErr.recordNotFound => Except.error ServiceErr.notFound
        | Except.error _ => Except.error ServiceErr.internal
        | Except.ok contract =>
            match ContractRepository.RecordTripUsage db
              { tripID := input.tripID, ticketID := input.ticketID,
                volumeM3 := input.volumeM3, contractID := contractID }
              contract.pricePerM3 now with
            | Except.error RepoErr.tripUsageDuplicate => Except.error ServiceErr.conflict
            | Except.error _ => Except.error ServiceErr.internal
            | Except.ok db2 => Except.ok db2

/-- Modelled from the spec: the service-level delete orchestration
(`ContractService.Delete`) is not present under `src` — only its HTTP caller
`Handler.deleteContract` and the repository primitives (`Delete`,
`HasRelatedTickets`, `DeleteTicketsByContractID`) are.  Per the spec's access
table only the contract authority may delete, and per §4.5: "if not forced and
any dependent ticket exists, fails with a conflict error ...; if forced, first
deletes all dependent tickets ... then deletes the contract row". -/
def DeleteOp (db : DB) (principal : Principal) (contractID : UUID)
    (force : Bool) : Except ServiceErr DB :=
  if !principal.isKgu then Except.error ServiceErr.permissionDenied
  else if !force && ContractRepository.HasRelatedTickets db contractID then
    Except.error ServiceErr.conflict
  else
    let db1 := if force then ContractRepository.DeleteTicketsByContractID db contractID else db
    match ContractRepository.Delete db1 contractID with
    | Except.error RepoErr.recordNotFound => Except.error ServiceErr.notFound
    | Except.error _ => Except.error ServiceErr.internal
    | Except.ok db2 => Except.ok db2

end ContractService

/-! ## Observers and claim-level outcome predicates -/

/-- Accumulated volume of a contract as the usage rollup records it (zero when
no usage row exists). -/
def usageVolume (db : DB) (contractID : UUID) : ℚ :=
  match ContractRepository.getUsage db contractID with
  | Option.some u => u.totalVolumeM3
  | Option.none => 0

/-- Accumulated cost of a contract as the usage rollup records it. -/
def usageCost (db : DB) (contractID : UUID) : ℚ :=
  match ContractRepository.getUsage db contractID with
  | Option.some u => u.totalCost
  | Option.none => 0

/-- The contract reference of a ticket: `Option.none` when the ticket row does
not exist, otherwise its (nullable) `contract_id`. -/
def ticketContract (db : DB) (ticketID : UUID) : Option (Option UUID) :=
  (db.tickets.find? (fun t => decide (t.id = ticketID))).map (fun t => t.contractID)

/-- A contract as `GetByID`/`List` return it with usage inclusion: the scanned
row with its usage row attached. -/
def withUsage (row : ContractRow) (u : ContractUsage) : Contract :=
  { row.toContract with usage := Option.some u }

/-- Outcome asserted for a first-time trip recording: it succeeds, adds exactly
the volume (and volume × price) to the contract's rollup in the same
transaction, leaves the trip id in the ledger, and every later recording of the
same trip id — by any authorized caller, with any volume, through any ticket
that resolves to a contract — fails with `Conflict` (and, the operation being a
rolled-back transaction, changes nothing). -/
def RecordedOnceOutcome (db : DB) (now : Int) (pr : Principal)
    (input : ContractService.RecordTripUsageInput) (cid : UUID) (price : ℚ) : Prop :=
  ∃ db2, ContractService.RecordTripUsageOp db now pr input = Except.ok db2 ∧
    usageVolume db2 cid = usageVolume db cid + input.volumeM3 ∧
    usageCost db2 cid = usageCost db cid + input.volumeM3 * price ∧
    db2.tripLog.any (fun r => decide (r.tripID = input.tripID)) = true ∧
    ∀ (dbL : DB) (nowL : Int) (prL : Principal)
      (inputL : ContractService.RecordTripUsageInput),
      inputL.tripID = input.tripID →
      (prL.isKgu || prL.isAkimat) = true →
      0 < inputL.volumeM3 →
      dbL.tripLog.any (fun r => decide (r.tripID = input.tripID)) = true →
      (∃ cidL rowL,
        ContractRepository.GetContractIDByTicket dbL inputL.ticketID = Except.ok cidL ∧
        ContractRepository.lookupRow dbL cidL = Option.some rowL) →
      ContractService.RecordTripUsageOp dbL nowL prL inputL =
        Except.error ServiceErr.conflict

/-- Outcome asserted for the write-once ticket binding: binding succeeds and
sets the reference; re-binding the same pair is a no-op success on the very
same state; and from any state in which the ticket references this contract, an
authorized bind to a different existing contract fails with `Conflict` and the
reference still points to the original contract. -/
def BindOutcome (db : DB) (pr : Principal) (ticketID contractID : UUID) : Prop :=
  ∃ db1,
    ContractService.AssignTicketContractOp db pr
      { ticketID := ticketID, contractID := contractID } = Except.ok db1 ∧
    ticketContract db1 ticketID = Option.some (Option.some contractID) ∧
    ContractService.AssignTicketContractOp db1 pr
      { ticketID := ticketID, contractID := contractID } = Except.ok db1 ∧
    ∀ (dbL : DB) (prL : Principal) (otherID : UUID) (rowL : ContractRow),
      ticketContract dbL ticketID = Option.some (Option.some contractID) →
      prL.isKgu = true →
      ContractRepository.lookupRow dbL otherID = Option.some rowL →
      rowL.createdByOrgID = prL.organizationID →
      otherID ≠ contractID →
      ContractService.AssignTicketContractOp dbL prL
        { ticketID := ticketID, contractID := otherID } =
          Except.error ServiceErr.conflict ∧
      ticketContract dbL ticketID = Option.some (Option.some contractID)

/-- Outcome asserted for the derived financial/volume view of a contract with
usage `(V, C) = (u.totalVolumeM3, u.totalCost)`. -/
def RollupOutcome (row : ContractRow) (u : ContractUsage) (now : Int) : Prop :=
  (ContractService.decorateContract (withUsage row u) now).payableAmount =
      min u.totalCost row.budgetTotal ∧
  ((ContractService.decorateContract (withUsage row u) now).budgetExceeded = true ↔
      row.budgetTotal < u.totalCost) ∧
  (ContractService.decorateContract (withUsage row u) now).volumeProgress =
      u.totalVolumeM3 / row.minimalVolumeM3 ∧
  ((ContractService.deriveUIStatus (withUsage row u) now = ContractUIStatus.planned ∨
    ContractService.deriveUIStatus (withUsage row u) now = ContractUIStatus.active ∨
    ContractService.deriveUIStatus (withUsage row u) now = ContractUIStatus.archived) →
     (ContractService.decorateContract (withUsage row u) now).result =
       Option.some ContractResult.none) ∧
  (ContractService.deriveUIStatus (withUsage row u) now = ContractUIStatus.expired →
     (ContractService.decorateContract (withUsage row u) now).result =
       Option.some
         (if row.minimalVolumeM3 ≤ u.totalVolumeM3 then ContractResult.success
          else ContractResult.fail))

/-- Outcome asserted for a contractor-role list call: the requested contractor
filter is irrelevant, and every returned contract names the caller's
organization as its contractor. -/
def ContractorListOutcome (db : DB) (now : Int) (pr : Principal)
    (input : ContractService.ListContractsInput) : Prop :=
  (∀ other : Option UUID,
     ContractService.ListOp db now pr { input with contractorID := other } =
       ContractService.ListOp db now pr input) ∧
  (∀ out, ContractService.ListOp db now pr input = Except.ok out →
     ∀ c ∈ out, c.contractorID = pr.organizationID)

/-- Outcome asserted for creation: any violation of the date-window or
positivity invariants is rejected as invalid input, and on success both the
returned contract and every row of the resulting store satisfy the invariants
(rows not newly created were already present). -/
def CreateOutcome (db : DB) (now : Int) (pr : Principal)
    (input : ContractService.CreateContractInput) : Prop :=
  ((¬ input.startAt < input.endAt ∨ input.pricePerM3 ≤ 0 ∨ input.budgetTotal ≤ 0 ∨
      input.minimalVolumeM3 ≤ 0) →
     ContractService.CreateOp db now pr input = Except.error ServiceErr.invalidInput) ∧
  (∀ c db2, ContractService.CreateOp db now pr input = Except.ok (c, db2) →
     (c.startAt < c.endAt ∧ 0 < c.pricePerM3 ∧ 0 < c.budgetTotal ∧
        0 < c.minimalVolumeM3) ∧
     ∀ r ∈ db2.contracts, r ∈ db.contracts ∨
       (r.startAt < r.endAt ∧ 0 < r.pricePerM3 ∧ 0 < r.budgetTotal ∧
          0 < r.minimalVolumeM3))

/-- Outcome asserted for deletion of an existing contract: blocked unforced
when a dependent ticket exists; a forced delete removes all bound tickets and
the contract; an unforced delete of a dependency-free contract succeeds. -/
def DeleteOutcome (db : DB) (pr : Principal) (contractID : UUID) : Prop :=
  (ContractRepository.HasRelatedTickets db contractID = true →
     ContractService.DeleteOp db pr contractID false = Except.error ServiceErr.conflict) ∧
  (∃ db2, ContractService.DeleteOp db pr contractID true = Except.ok db2 ∧
     (∀ r ∈ db2.contracts, r.id ≠ contractID) ∧
     (∀ t ∈ db2.tickets, t.contractID ≠ Option.some contractID)) ∧
  (ContractRepository.HasRelatedTickets db contractID = false →
     ∃ db2, ContractService.DeleteOp db pr contractID false = Except.ok db2 ∧
       ∀ r ∈ db2.contracts, r.id ≠ contractID)

/-- Outcome asserted for an ungated first-time recording: success with the full
addition even though the resulting accumulated cost exceeds the budget. -/
def UngatedRecordOutcome (db : DB) (now : Int) (pr : Principal)
    (input : ContractService.RecordTripUsageInput) (cid : UUID)
    (price budget : ℚ) : Prop :=
  ∃ db2, ContractService.RecordTripUsageOp db now pr input = Except.ok db2 ∧
    usageVolume db2 cid = usageVolume db cid + input.volumeM3 ∧
    usageCost db2 cid = usageCost db cid + input.volumeM3 * price ∧
    budget < usageCost db2 cid

/-! ## Concrete fixtures used by the witnesses -/

/-- A contractor-service contract: price 100, budget 1000, minimal volume 500,
window `[0, 100]`, active, created by organization 21 for contractor 11. -/
def rowA : ContractRow :=
  { id := 1, contractorID := 11, createdByOrgID := 21, name := "road works"
    workType := WorkType.road, pricePerM3 := 100, budgetTotal := 1000
    minimalVolumeM3 := 500, startAt := 0, endAt := 100, isActive := true
    createdAt := 0 }

/-- A second contract by the same organization. -/
def rowB : ContractRow := { rowA with id := 2, createdAt := 1 }

/-- A stored row violating the creation invariant: `end_at` before `start_at`. -/
def rowInv : ContractRow := { rowA with id := 9, startAt := 10, endAt := 0 }

/-- The contract of the spec's status examples: `start_at = 2024-01-01`,
`end_at = 2024-12-31` (Unix timestamps), active. -/
def sampleRow : ContractRow := { rowA with id := 8, startAt := 1704067200, endAt := 1735603200 }

/-- Zero-initialized usage row of contract 1. -/
def usageA : ContractUsage :=
  { id := 3, contractID := 1, totalVolumeM3 := 0, totalCost := 0, updatedAt := 0 }

/-- Zero-initialized usage row of contract 2. -/
def usageB : ContractUsage :=
  { id := 4, contractID := 2, totalVolumeM3 := 0, totalCost := 0, updatedAt := 0 }

/-- A usage row showing volume 500 and cost 1200 against contract 1. -/
def usageBig : ContractUsage :=
  { id := 3, contractID := 1, totalVolumeM3 := 500, totalCost := 1200, updatedAt := 0 }

/-- A store with contracts 1 and 2, ticket 10 bound to contract 1, ticket 11
unbound, and an empty ledger. -/
def db0 : DB :=
  { contracts := [rowA, rowB]
    usage := [usageA, usageB]
    tickets := [{ id := 10, contractID := Option.some 1 },
                { id := 11, contractID := Option.none }]
    tripLog := []
    nextID := 50 }

/-- A contract-authority principal of organization 21. -/
def prKgu : Principal := { userID := 1, organizationID := 21, role := UserRole.kguZkhAdmin }

/-- A contractor principal of organization 11. -/
def prContractor : Principal :=
  { userID := 2, organizationID := 11, role := UserRole.contractorAdmin }

/-- A list request carrying an explicit status filter. -/
def inputList0 : ContractService.ListContractsInput :=
  { contractorID := Option.none, workType := Option.none, onlyActive := false
    status := Option.some ContractUIStatus.active, startFrom := Option.none
    startTo := Option.none, endFrom := Option.none, endTo := Option.none }

/-- A list request without a status filter. -/
def inputList1 : ContractService.ListContractsInput :=
  { inputList0 with status := Option.none }

/-- A well-formed creation request. -/
def inputCreate0 : ContractService.CreateContractInput :=
  { contractorID := 11, name := "north district", workType := WorkType.road
    pricePerM3 := 100, budgetTotal := 1000, minimalVolumeM3 := 500
    startAt := 0, endAt := 100, isActive := Option.none }

/-! ## Helper lemmas -/

/-- `find?` over a map that rewrites exactly the elements matched by the
predicate. -/
theorem find?_map_update {α : Type} (p : α → Bool) (f : α → α)
    (hpf : ∀ a, p a = true → p (f a) = true) (l : List α) :
    (l.map (fun a => if p a then f a else a)).find? p = (l.find? p).map f := by
  induction l with
  | nil => rfl
  | cons x xs ih =>
      by_cases hx : p x = true
      · simp [List.find?_cons_of_pos, hx, hpf x hx]
      · have hx' : p x = false := by simpa using hx
        simp only [List.map_cons, hx', Bool.false_eq_true, if_false]
        rw [List.find?_cons_of_neg _ hx, List.find?_cons_of_neg _ hx]
        exact ih

/-- The additive upsert rewrites (or creates) exactly the targeted usage row. -/
theorem getUsage_upsertUsage_self (db : DB) (cid : UUID) (v c : ℚ) (now : Int) :
    ContractRepository.getUsage (ContractRepository.upsertUsage db cid v c now) cid =
      match ContractRepository.getUsage db cid with
      | Option.some u => Option.some { u with totalVolumeM3 := u.totalVolumeM3 + v,
                                              totalCost := u.totalCost + c,
                                              updatedAt := now }
      | Option.none => Option.some { id := db.nextID, contractID := cid,
                                     totalVolumeM3 := v, totalCost := c,
                                     updatedAt := now } := by
  unfold ContractRepository.upsertUsage ContractRepository.getUsage
  by_cases h : db.usage.any (fun u => decide (u.contractID = cid)) = true
  · simp only [h, if_true]
    rw [find?_map_update]
    · rcases hf : db.usage.find? (fun u => decide (u.contractID = cid)) with _ | u
      · rw [List.find?_eq_none] at hf
        rw [List.any_eq_true] at h
        rcases h with ⟨x, hx, hpx⟩
        exact absurd hpx (hf x hx)
      · simp [hf]
    · intro a ha
      exact ha
  · have h' : db.usage.any (fun u => decide (u.contractID = cid)) = false := by
      simpa using h
    have hf : db.usage.find? (fun u => decide (u.contractID = cid)) = Option.none := by
      rw [List.find?_eq_none]
      intro x hx
      rw [List.any_eq_false] at h'
      exact h' x hx
    simp only [h', Bool.false_eq_true, if_false, List.find?_append, hf]
    simp

/-- The upsert only touches the usage table and the id generator. -/
theorem upsertUsage_tripLog (db : DB) (cid : UUID) (v c : ℚ) (now : Int) :
    (ContractRepository.upsertUsage db cid v c now).tripLog = db.tripLog := by
  unfold ContractRepository.upsertUsage
  split <;> rfl

/-- Volume added by the upsert. -/
theorem usageVolume_upsertUsage (db : DB) (cid : UUID) (v c : ℚ) (now : Int) :
    usageVolume (ContractRepository.upsertUsage db cid v c now) cid =
      usageVolume db cid + v := by
  unfold usageVolume
  rw [getUsage_upsertUsage_self]
  rcases h : ContractRepository.getUsage db cid with _ | u <;> simp [h]

/-- Cost added by the upsert. -/
theorem usageCost_upsertUsage (db : DB) (cid : UUID) (v c : ℚ) (now : Int) :
    usageCost (ContractRepository.upsertUsage db cid v c now) cid =
      usageCost db cid + c := by
  unfold usageCost
  rw [getUsage_upsertUsage_self]
  rcases h : ContractRepository.getUsage db cid with _ | u <;> simp [h]

/-- Insertion into the descending-order list preserves membership. -/
theorem mem_insertByCreatedAtDesc {a c : ContractRow} {l : List ContractRow} :
    a ∈ ContractRepository.insertByCreatedAtDesc c l ↔ a = c ∨ a ∈ l := by
  induction l with
  | nil => simp [ContractRepository.insertByCreatedAtDesc]
  | cons x xs ih =>
      unfold ContractRepository.insertByCreatedAtDesc
      split
      · simp
      · simp [ih]
        tauto

/-- The `ORDER BY created_at DESC` step preserves membership. -/
theorem mem_sortByCreatedAtDesc {a : ContractRow} {l : List ContractRow} :
    a ∈ ContractRepository.sortByCreatedAtDesc l ↔ a ∈ l := by
  unfold ContractRepository.sortByCreatedAtDesc
  induction l with
  | nil => simp
  | cons x xs ih => simp [mem_insertByCreatedAtDesc, ih]

/-- Decoration never changes the stored contractor reference. -/
theorem decorateContract_contractorID (c : Contract) (now : Int) :
    (ContractService.decorateContract c now).contractorID = c.contractorID := rfl

/-! ## Claim theorems -/

/-- C2: for every contract and every time `now`, the derived lifecycle status
follows the precedence ARCHIVED (active flag false, regardless of dates), then
PLANNED (`now < start_at`), then EXPIRED (`now > end_at`), then ACTIVE; and the
spec's example contract (start 2024-01-01, end 2024-12-31, active) is PLANNED
at 2023-12-01, ACTIVE at 2024-06-01 and EXPIRED at 2025-01-01. -/
theorem deriveUIStatus_precedence :
    (∀ (c : Contract) (now : Int),
      (ContractService.deriveUIStatus c now = ContractUIStatus.archived ↔
        c.isActive = false) ∧
      (ContractService.deriveUIStatus c now = ContractUIStatus.planned ↔
        c.isActive = true ∧ now < c.startAt) ∧
      (ContractService.deriveUIStatus c now = ContractUIStatus.expired ↔
        c.isActive = true ∧ c.startAt ≤ now ∧ c.endAt < now) ∧
      (ContractService.deriveUIStatus c now = ContractUIStatus.active ↔
        c.isActive = true ∧ c.startAt ≤ now ∧ now ≤ c.endAt)) ∧
    ContractService.deriveUIStatus sampleRow.toContract 1701388800 =
      ContractUIStatus.planned ∧
    ContractService.deriveUIStatus sampleRow.toContract 1717200000 =
      ContractUIStatus.active ∧
    ContractService.deriveUIStatus sampleRow.toContract 1735689600 =
      ContractUIStatus.expired := by
  refine ⟨fun c now => ?_, by decide, by decide, by decide⟩
  unfold ContractService.deriveUIStatus
  cases hA : c.isActive
  · simp [hA]
  · by_cases h1 : now < c.startAt <;> by_cases h2 : c.endAt < now <;>
      simp [hA, h1, h2] <;> omega

/-- C3: for a contract with accumulated usage `(V, C)`, the derived view has
`payable = min(C, budget_total)`, `exceeded` exactly when `C > budget_total`,
`progress = V / minimal_volume_m3` (minimal volume positive), result NONE while
the status is PLANNED, ACTIVE or ARCHIVED (archived even past the end date),
and at EXPIRED result SUCCESS exactly when `V ≥ minimal_volume_m3`. -/
theorem decorateContract_rollups (row : ContractRow) (u : ContractUsage)
    (now : Int) (hmin : 0 < row.minimalVolumeM3) :
    RollupOutcome row u now := by
  have hu : (withUsage row u).usage = Option.some u := rfl
  unfold RollupOutcome ContractService.decorateContract
  simp only [hu, hmin, if_true]
  refine ⟨rfl, ?_, ?_, ?_, ?_⟩
  · by_cases hb : row.budgetTotal < u.totalCost <;> simp [hb, withUsage, ContractRow.toContract]
  · simp [withUsage, ContractRow.toContract, hmin]
  · intro hs
    rcases hs with hs | hs | hs <;> simp [hs]
  · intro hs
    have hm : (withUsage row u).minimalVolumeM3 = row.minimalVolumeM3 := rfl
    simp [hs, hm]

/-- C3 witness: the contract with budget 1000 and minimal volume 500, carrying
usage volume 500 and cost 1200, evaluated past its end date. -/
theorem decorateContract_rollups_witness :
    0 < rowA.minimalVolumeM3 ∧ RollupOutcome rowA usageBig 200 :=
  ⟨by decide, decorateContract_rollups rowA usageBig 200 (by decide)⟩

/-- C9 counterexample: the stored row `rowInv` (`start_at = 10`, `end_at = 0`,
active) at `now = 5` is admitted by the EXPIRED status filter of the SQL list
query, yet `deriveUIStatus` gives PLANNED at the same instant — so the claimed
filter/derivation equivalence is false for arbitrary stored rows. -/
theorem statusFilter_counterexample :
    ContractRepository.matchesStatus ContractUIStatus.expired 5 rowInv = true ∧
    ContractService.deriveUIStatus rowInv.toContract 5 = ContractUIStatus.planned := by
  decide

/-- C9 (amended): for every stored contract row whose date window is not
inverted (`start_at ≤ end_at` — guaranteed by the creation invariant), the
explicit status filter of the list query admits the row at time `now` exactly
when `deriveUIStatus` of that row at the same `now` equals the requested
status; and when a status filter is supplied, the list operation ignores the
active-only flag. -/
theorem statusFilter_refines_derive (row : ContractRow) (s : ContractUIStatus)
    (nowF : Int) (db : DB) (now2 : Int) (pr : Principal)
    (input : ContractService.ListContractsInput) (b : Bool)
    (hord : row.startAt ≤ row.endAt) (hsome : input.status.isSome = true) :
    (ContractRepository.matchesStatus s nowF row = true ↔
      ContractService.deriveUIStatus row.toContract nowF = s) ∧
    ContractService.ListOp db now2 pr { input with onlyActive := b } =
      ContractService.ListOp db now2 pr input := by
  constructor
  · have hA : row.toContract.isActive = row.isActive := rfl
    have h1 : row.toContract.startAt = row.startAt := rfl
    have h2 : row.toContract.endAt = row.endAt := rfl
    unfold ContractRepository.matchesStatus ContractService.deriveUIStatus
    rw [hA, h1, h2]
    cases s <;> cases hAct : row.isActive <;>
      by_cases hp : nowF < row.startAt <;> by_cases he : row.endAt < nowF <;>
        simp [hAct, hp, he] <;> omega
  · have hno : input.status.isNone = false := by
      cases h : input.status <;> simp [h] at hsome ⊢
    unfold ContractService.ListOp
    simp [hno]

/-- C9 witness: a well-ordered contract row and a status-filtered request. -/
theorem statusFilter_refines_derive_witness :
    rowA.startAt ≤ rowA.endAt ∧ inputList0.status.isSome = true ∧
    ((ContractRepository.matchesStatus ContractUIStatus.active 50 rowA = true ↔
       ContractService.deriveUIStatus rowA.toContract 50 = ContractUIStatus.active) ∧
     ContractService.ListOp db0 0 prKgu { inputList0 with onlyActive := true } =
       ContractService.ListOp db0 0 prKgu inputList0) :=
  ⟨by decide, by decide,
    statusFilter_refines_derive rowA ContractUIStatus.active 50 db0 0 prKgu
      inputList0 true (by decide) (by decide)⟩

/-- A row admitted by a filter carrying a contractor constraint names that
contractor. -/
theorem matchesFilter_contractorID {f : ContractRepository.ContractFilter}
    {row : ContractRow} {org : UUID} (hf : f.contractorID = Option.some org)
    (h : ContractRepository.matchesFilter f row = true) : row.contractorID = org := by
  unfold ContractRepository.matchesFilter at h
  rw [hf] at h
  simp only [Bool.and_eq_true, decide_eq_true_eq] at h
  tauto

/-- Every contract returned by the repository list under a contractor
constraint names that contractor. -/
theorem listContracts_mem_contractor (db : DB) (f : ContractRepository.ContractFilter)
    (org : UUID) (hf : f.contractorID = Option.some org) :
    ∀ c ∈ ContractRepository.ListContracts db f, c.contractorID = org := by
  intro c hc
  unfold ContractRepository.ListContracts at hc
  simp only [List.mem_map] at hc
  rcases hc with ⟨row, hrow, rfl⟩
  rw [mem_sortByCreatedAtDesc, List.mem_filter] at hrow
  rcases hrow with ⟨hmem, hmatch⟩
  have hcid := matchesFilter_contractorID hf hmatch
  by_cases hi : f.includeUsage = true <;> simp [hi, ContractRow.toContract, hcid]

/-- C5: a contractor-role principal's list call is silently scoped to its own
organization: the requested contractor filter is ignored (same rows for any
requested value) and every returned contract names the caller's organization
as contractor. -/
theorem contractorList_scoped (db : DB) (now : Int) (pr : Principal)
    (input : ContractService.ListContractsInput)
    (hrole : pr.isContractor = true) :
    ContractorListOutcome db now pr input := by
  constructor
  · intro other
    unfold ContractService.ListOp
    simp [hrole]
  · intro out hout c hc
    unfold ContractService.ListOp at hout
    simp only [hrole, if_true] at hout
    rcases hw : input.workType with _ | w <;> rw [hw] at hout <;>
      simp only [Except.ok.injEq] at hout <;> subst hout <;>
      simp only [List.mem_map] at hc <;> rcases hc with ⟨c0, hc0, rfl⟩ <;>
      rw [decorateContract_contractorID] <;>
      exact listContracts_mem_contractor db _ pr.organizationID rfl c0 hc0

/-- C5 witness: a contractor principal of organization 11 listing against the
two-contract store. -/
theorem contractorList_scoped_witness :
    prContractor.isContractor = true ∧ ContractorListOutcome db0 0 prContractor inputList1 :=
  ⟨by decide, contractorList_scoped db0 0 prContractor inputList1 (by decide)⟩

/-- Repository `Create` appends exactly one contract row. -/
theorem create_contracts_eq (db : DB) (now : Int)
    (p : ContractRepository.CreateContractParams) :
    (ContractRepository.Create db now p).2.contracts = db.contracts ++
      [{ id := db.nextID, contractorID := p.contractorID
         createdByOrgID := p.createdByOrgID, name := p.name
         workType := p.workType, pricePerM3 := p.pricePerM3
         budgetTotal := p.budgetTotal, minimalVolumeM3 := p.minimalVolumeM3
         startAt := p.startAt, endAt := p.endAt, isActive := p.isActive
         createdAt := now }] := by
  unfold ContractRepository.Create
  dsimp only
  split <;> rfl

/-- C6: creation by an authorized caller rejects a non-increasing date window
or a non-positive price, budget or minimal volume as invalid input; hence the
contract returned by a successful create — and every row of the resulting
store that was not already present — satisfies `end_at > start_at`,
`price_per_m3 > 0`, `budget_total > 0` and `minimal_volume_m3 > 0`. -/
theorem createContract_invariants (db : DB) (now : Int) (pr : Principal)
    (input : ContractService.CreateContractInput)
    (hkgu : pr.isKgu = true) :
    CreateOutcome db now pr input := by
  constructor
  · intro hviol
    unfold ContractService.CreateOp
    split_ifs with h1 h2 h3 h4 h5 h6 h7
    · rw [hkgu] at h1
      exact absurd h1 (by simp)
    · rfl
    · rfl
    · rfl
    · rfl
    · rfl
    · rfl
    · exfalso
      have hdate : input.startAt < input.endAt := by simpa using h6
      rcases hviol with h | h | h | h
      · exact h hdate
      · exact h3 h
      · exact h4 h
      · exact h5 h
  · intro c db2 hok
    unfold ContractService.CreateOp at hok
    split_ifs at hok with h1 h2 h3 h4 h5 h6 h7
    simp only [Except.ok.injEq, Prod.mk.injEq] at hok
    rcases hok with ⟨hc, hdb⟩
    subst hc
    subst hdb
    have hdate : input.startAt < input.endAt := by simpa using h6
    constructor
    · exact ⟨hdate, not_le.mp h3, not_le.mp h4, not_le.mp h5⟩
    · intro r hr
      rw [create_contracts_eq] at hr
      rcases List.mem_append.mp hr with h | h
      · exact Or.inl h
      · right
        rcases List.mem_singleton.mp h with rfl
        exact ⟨hdate, not_le.mp h3, not_le.mp h4, not_le.mp h5⟩

/-- C6 witness: the contract authority issuing a well-formed create request. -/
theorem createContract_invariants_witness :
    prKgu.isKgu = true ∧ CreateOutcome db0 0 prKgu inputCreate0 :=
  ⟨by decide, createContract_invariants db0 0 prKgu inputCreate0 (by decide)⟩

/-- C7: evaluation of the recording preconditions at concrete inputs, for the
contract authority against the fixture store.  The non-positive-volume and
unbound-ticket cases return the invalid-input error, as the claim says; but
the unknown-ticket case (ticket 99 has no row) ALSO returns invalid input,
not the claimed not-found: the empty `Raw().Scan` adds no error, so
`GetContractIDByTicket` falls through to the `uuid.Nil` check and yields
`ErrTicketNotLinked`, which the service maps to `ErrInvalidInput` — the
`gorm.ErrRecordNotFound` branch of the source is dead code.  Each failure is
an error of the transaction-as-function, so no ledger row is written and the
rollup is untouched. -/
theorem recordTripUsage_precondition_divergence :
    ContractService.RecordTripUsageOp db0 0 prKgu
      { tripID := 100, ticketID := 10, volumeM3 := 0 } =
      Except.error ServiceErr.invalidInput ∧
    db0.tickets.find? (fun t => decide (t.id = 99)) = Option.none ∧
    ContractService.RecordTripUsageOp db0 0 prKgu
      { tripID := 100, ticketID := 99, volumeM3 := 3 } =
      Except.error ServiceErr.invalidInput ∧
    ContractService.RecordTripUsageOp db0 0 prKgu
      { tripID := 100, ticketID := 99, volumeM3 := 3 } ≠
      Except.error ServiceErr.notFound ∧
    db0.tickets.find? (fun t => decide (t.id = 11)) =
      Option.some { id := 11, contractID := Option.none } ∧
    ContractService.RecordTripUsageOp db0 0 prKgu
      { tripID := 100, ticketID := 11, volumeM3 := 3 } =
      Except.error ServiceErr.invalidInput :=
  ⟨rfl, rfl, rfl, fun h => ServiceErr.noConfusion (Except.error.inj h), rfl, rfl⟩

/-- C4: a ticket's contract reference is write-once: binding an unbound ticket
to a contract succeeds and sets the reference, re-binding the same pair is a
no-op success, and binding the ticket to any different existing contract fails
with `Conflict`, leaving the reference unchanged. -/
theorem assignTicket_write_once (db : DB) (pr : Principal)
    (ticketID contractID : UUID) (rowC : ContractRow) (t0 : Ticket)
    (hkgu : pr.isKgu = true)
    (hrow : ContractRepository.lookupRow db contractID = Option.some rowC)
    (horg : rowC.createdByOrgID = pr.organizationID)
    (ht : db.tickets.find? (fun t => decide (t.id = ticketID)) = Option.some t0)
    (hun : t0.contractID = Option.none) :
    BindOutcome db pr ticketID contractID := by
  have hrow' : db.contracts.find? (fun c => decide (c.id = contractID)) =
      Option.some rowC := hrow
  have htc : rowC.toContract.createdByOrgID = pr.organizationID := horg
  have hmap : (db.tickets.map (fun t =>
      if decide (t.id = ticketID) then { t with contractID := Option.some contractID }
      else t)).find? (fun t => decide (t.id = ticketID)) =
      Option.some { t0 with contractID := Option.some contractID } := by
    rw [find?_map_update (fun t => decide (t.id = ticketID))
      (fun t => { t with contractID := Option.some contractID })
      (fun a ha => ha) db.tickets, ht]
    rfl
  refine ⟨{ db with tickets := db.tickets.map (fun t =>
      if decide (t.id = ticketID) then { t with contractID := Option.some contractID }
      else t) }, ?_, ?_, ?_, ?_⟩
  · unfold ContractService.AssignTicketContractOp ContractRepository.GetByID
      ContractRepository.lookupRow ContractRepository.AssignTicketContract
    simp [hrow', htc, hkgu, ht, hun]
  · unfold ticketContract
    dsimp only
    rw [hmap]
    rfl
  · unfold ContractService.AssignTicketContractOp ContractRepository.GetByID
      ContractRepository.lookupRow ContractRepository.AssignTicketContract
    dsimp only
    rw [hrow', hmap]
    simp [htc, hkgu]
  · intro dbL prL otherID rowL hL hkguL hrowL horgL hne
    have hL0 := hL
    unfold ticketContract at hL
    rcases hfL : dbL.tickets.find? (fun t => decide (t.id = ticketID)) with _ | tL
    · rw [hfL] at hL
      exact absurd hL (by simp)
    · rw [hfL] at hL
      simp only [Option.map_some', Option.some.injEq] at hL
      have hrowL' : dbL.contracts.find? (fun c => decide (c.id = otherID)) =
          Option.some rowL := hrowL
      have horgL' : rowL.toContract.createdByOrgID = prL.organizationID := horgL
      have hne' : ¬ (tL.contractID = Option.some otherID) := by
        rw [hL]
        intro h
        exact hne (Option.some.inj h).symm
      constructor
      · unfold ContractService.AssignTicketContractOp ContractRepository.GetByID
          ContractRepository.lookupRow ContractRepository.AssignTicketContract
        have hneq : ¬ (contractID = otherID) := fun h => hne h.symm
        simp [hkguL, hrowL', horgL', hfL, hL, hneq]
      · exact hL0

/-- C4 witness: ticket 11 (unbound) bound to contract 1 of organization 21 by
that organization's authority. -/
theorem assignTicket_write_once_witness :
    prKgu.isKgu = true ∧
    ContractRepository.lookupRow db0 1 = Option.some rowA ∧
    rowA.createdByOrgID = prKgu.organizationID ∧
    db0.tickets.find? (fun t => decide (t.id = 11)) =
      Option.some { id := 11, contractID := Option.none } ∧
    BindOutcome db0 prKgu 11 1 :=
  ⟨by decide, by decide, by decide, by decide,
    assignTicket_write_once db0 prKgu 11 1 rowA
      { id := 11, contractID := Option.none }
      (by decide) (by decide) (by decide) (by decide) rfl⟩

/-- A first-time recording through a bound ticket succeeds and adds exactly the
volume and volume × price to the contract's rollup, leaving the trip id in the
ledger. -/
theorem recordTripUsage_success (db : DB) (now : Int) (pr : Principal)
    (input : ContractService.RecordTripUsageInput) (cid : UUID) (row : ContractRow)
    (hauth : (pr.isKgu || pr.isAkimat) = true)
    (hvol : 0 < input.volumeM3)
    (hlink : ContractRepository.GetContractIDByTicket db input.ticketID = Except.ok cid)
    (hrow : ContractRepository.lookupRow db cid = Option.some row)
    (hfresh : db.tripLog.any (fun r => decide (r.tripID = input.tripID)) = false) :
    ∃ db2, ContractService.RecordTripUsageOp db now pr input = Except.ok db2 ∧
      usageVolume db2 cid = usageVolume db cid + input.volumeM3 ∧
      usageCost db2 cid = usageCost db cid + input.volumeM3 * row.pricePerM3 ∧
      db2.tripLog.any (fun r => decide (r.tripID = input.tripID)) = true := by
  have hv' : ¬ input.volumeM3 ≤ 0 := not_le.mpr hvol
  have hget : ContractRepository.GetByID db cid false = Except.ok row.toContract := by
    unfold ContractRepository.GetByID
    rw [hrow]
    rfl
  refine ⟨ContractRepository.upsertUsage
    { db with tripLog := db.tripLog ++ [{ tripID := input.tripID
                                          ticketID := input.ticketID
                                          contractID := cid
                                          recordedVolumeM3 := input.volumeM3
                                          recordedCost := input.volumeM3 * row.pricePerM3
                                          createdAt := now }] }
    cid input.volumeM3 (input.volumeM3 * row.pricePerM3) now, ?_, ?_, ?_, ?_⟩
  · unfold ContractService.RecordTripUsageOp ContractRepository.RecordTripUsage
    simp only [hauth, Bool.not_true, Bool.false_eq_true, if_false, hv', hlink,
      hget, hfresh]
    rfl
  · rw [usageVolume_upsertUsage]
    rfl
  · rw [usageCost_upsertUsage]
    rfl
  · rw [upsertUsage_tripLog]
    dsimp only
    rw [List.any_append]
    simp

/-- A recording whose trip id is already in the ledger fails with `Conflict`
(for any authorized caller whose ticket resolves to an existing contract). -/
theorem recordTripUsage_duplicate_conflict (db : DB) (now : Int) (pr : Principal)
    (input : ContractService.RecordTripUsageInput) (cid : UUID) (row : ContractRow)
    (hauth : (pr.isKgu || pr.isAkimat) = true)
    (hvol : 0 < input.volumeM3)
    (hlink : ContractRepository.GetContractIDByTicket db input.ticketID = Except.ok cid)
    (hrow : ContractRepository.lookupRow db cid = Option.some row)
    (hdup : db.tripLog.any (fun r => decide (r.tripID = input.tripID)) = true) :
    ContractService.RecordTripUsageOp db now pr input =
      Except.error ServiceErr.conflict := by
  have hv' : ¬ input.volumeM3 ≤ 0 := not_le.mpr hvol
  have hget : ContractRepository.GetByID db cid false = Except.ok row.toContract := by
    unfold ContractRepository.GetByID
    rw [hrow]
    rfl
  unfold ContractService.RecordTripUsageOp ContractRepository.RecordTripUsage
  simp only [hauth, Bool.not_true, Bool.false_eq_true, if_false, hv', hlink,
    hget, hdup, if_true]

/-- C1: recording a trip is at-most-once per trip identity: the first call with
a fresh trip id and positive volume succeeds and atomically adds exactly the
volume and volume × unit price to the contract's rollup, and every later call
with the same trip id (any volume, any authorized caller) fails with `Conflict`
without touching the totals. -/
theorem recordTripUsage_at_most_once (db : DB) (now : Int) (pr : Principal)
    (input : ContractService.RecordTripUsageInput) (cid : UUID) (row : ContractRow)
    (hauth : (pr.isKgu || pr.isAkimat) = true)
    (hvol : 0 < input.volumeM3)
    (hlink : ContractRepository.GetContractIDByTicket db input.ticketID = Except.ok cid)
    (hrow : ContractRepository.lookupRow db cid = Option.some row)
    (hfresh : db.tripLog.any (fun r => decide (r.tripID = input.tripID)) = false) :
    RecordedOnceOutcome db now pr input cid row.pricePerM3 := by
  obtain ⟨db2, hok, hv, hc, hdup⟩ :=
    recordTripUsage_success db now pr input cid row hauth hvol hlink hrow hfresh
  refine ⟨db2, hok, hv, hc, hdup, ?_⟩
  rintro dbL nowL prL inputL htrip hauthL hvolL hdupL ⟨cidL, rowL, hlinkL, hrowL⟩
  have hdupL' : dbL.tripLog.any (fun r => decide (r.tripID = inputL.tripID)) = true := by
    rw [htrip]
    exact hdupL
  exact recordTripUsage_duplicate_conflict dbL nowL prL inputL cidL rowL
    hauthL hvolL hlinkL hrowL hdupL'

/-- C1 witness: recording trip 100 (volume 3) through ticket 10 bound to
contract 1 against a fresh ledger. -/
theorem recordTripUsage_at_most_once_witness :
    (prKgu.isKgu || prKgu.isAkimat) = true ∧
    (0 : ℚ) < 3 ∧
    ContractRepository.GetContractIDByTicket db0 10 = Except.ok 1 ∧
    ContractRepository.lookupRow db0 1 = Option.some rowA ∧
    db0.tripLog.any (fun r => decide (r.tripID = 100)) = false ∧
    RecordedOnceOutcome db0 5 prKgu
      { tripID := 100, ticketID := 10, volumeM3 := 3 } 1 rowA.pricePerM3 :=
  ⟨by decide, by decide, rfl, rfl, rfl,
    recordTripUsage_at_most_once db0 5 prKgu
      { tripID := 100, ticketID := 10, volumeM3 := 3 } 1 rowA
      (by decide) (by decide) rfl rfl rfl⟩

/-- C10: the recording path is not gated by lifecycle or budget: a first-time
recording with positive volume through a bound ticket succeeds even when the
contract's derived status at call time is EXPIRED or ARCHIVED, and even when
the addition pushes the accumulated cost past the budget — the totals are still
increased by the full volume and cost. -/
theorem recordTripUsage_not_gated (db : DB) (now : Int) (pr : Principal)
    (input : ContractService.RecordTripUsageInput) (cid : UUID) (row : ContractRow)
    (hauth : (pr.isKgu || pr.isAkimat) = true)
    (hvol : 0 < input.volumeM3)
    (hlink : ContractRepository.GetContractIDByTicket db input.ticketID = Except.ok cid)
    (hrow : ContractRepository.lookupRow db cid = Option.some row)
    (hfresh : db.tripLog.any (fun r => decide (r.tripID = input.tripID)) = false)
    (_hstatus : ContractService.deriveUIStatus row.toContract now = ContractUIStatus.expired ∨
      ContractService.deriveUIStatus row.toContract now = ContractUIStatus.archived)
    (hover : row.budgetTotal < usageCost db cid + input.volumeM3 * row.pricePerM3) :
    UngatedRecordOutcome db now pr input cid row.pricePerM3 row.budgetTotal := by
  obtain ⟨db2, hok, hv, hc, -⟩ :=
    recordTripUsage_success db now pr input cid row hauth hvol hlink hrow hfresh
  refine ⟨db2, hok, hv, hc, ?_⟩
  rw [hc]
  exact hover

/-- C10 witness: contract 1 is EXPIRED at time 200 and a volume-11 trip at
price 100 pushes cost to 1100 > budget 1000; the recording still succeeds. -/
theorem recordTripUsage_not_gated_witness :
    (prKgu.isKgu || prKgu.isAkimat) = true ∧
    (0 : ℚ) < 11 ∧
    ContractRepository.GetContractIDByTicket db0 10 = Except.ok 1 ∧
    ContractRepository.lookupRow db0 1 = Option.some rowA ∧
    db0.tripLog.any (fun r => decide (r.tripID = 101)) = false ∧
    (ContractService.deriveUIStatus rowA.toContract 200 = ContractUIStatus.expired ∨
      ContractService.deriveUIStatus rowA.toContract 200 = ContractUIStatus.archived) ∧
    rowA.budgetTotal < usageCost db0 1 + 11 * rowA.pricePerM3 ∧
    UngatedRecordOutcome db0 200 prKgu
      { tripID := 101, ticketID := 10, volumeM3 := 11 } 1
      rowA.pricePerM3 rowA.budgetTotal := by
  have hover : rowA.budgetTotal < usageCost db0 1 + 11 * rowA.pricePerM3 := by
    rw [show usageCost db0 1 = (0 : ℚ) from rfl,
        show rowA.budgetTotal = (1000 : ℚ) from rfl,
        show rowA.pricePerM3 = (100 : ℚ) from rfl]
    norm_num
  exact ⟨by decide, by decide, rfl, rfl, rfl, by decide, hover,
    recordTripUsage_not_gated db0 200 prKgu
      { tripID := 101, ticketID := 10, volumeM3 := 11 } 1 rowA
      (by decide) (by decide) rfl rfl rfl (by decide) hover⟩

/-- C8: deleting an existing contract (spec-modelled orchestration over the
repository primitives of the source): blocked with `Conflict` when not forced
and a dependent ticket exists; a forced delete removes every bound ticket and
the contract row; an unforced delete of a contract without dependent tickets
succeeds and removes the contract row. -/
theorem deleteContract_dependencies (db : DB) (pr : Principal) (contractID : UUID)
    (hkgu : pr.isKgu = true)
    (hex : db.contracts.any (fun c => decide (c.id = contractID)) = true) :
    DeleteOutcome db pr contractID := by
  refine ⟨?_, ?_, ?_⟩
  · intro hrel
    unfold ContractService.DeleteOp
    simp [hkgu, hrel]
  · unfold ContractService.DeleteOp ContractRepository.Delete
      ContractRepository.DeleteTicketsByContractID
    simp only [hkgu, Bool.not_true, Bool.false_and, Bool.false_eq_true, if_false,
      eq_self_iff_true, if_true, hex]
    refine ⟨_, rfl, ?_, ?_⟩
    · intro r hr
      rw [List.mem_filter] at hr
      simpa using hr.2
    · intro t ht
      rw [List.mem_filter] at ht
      simpa using ht.2
  · intro hnorel
    unfold ContractService.DeleteOp ContractRepository.Delete
    simp only [hkgu, Bool.not_true, Bool.not_false, Bool.false_and, Bool.true_and,
      Bool.false_eq_true, if_false, eq_self_iff_true, if_true, hnorel, hex]
    refine ⟨_, rfl, ?_⟩
    intro r hr
    rw [List.mem_filter] at hr
    simpa using hr.2

/-- C8 witness: contract 1 exists and has a dependent ticket, so the unforced
delete is blocked and the forced delete removes both. -/
theorem deleteContract_dependencies_witness :
    prKgu.isKgu = true ∧
    db0.contracts.any (fun c => decide (c.id = 1)) = true ∧
    DeleteOutcome db0 prKgu 1 :=
  ⟨by decide, by decide, deleteContract_dependencies db0 prKgu 1 (by decide) (by decide)⟩

end Snowops
